import Mathlib

/-!
# Verification of the PC_monitor serial protocol engine

A shallow embedding of the serial framing/parsing code of the repository
(`serial_worker.py`, `mouse_handler.py`, `constants.py`), with theorems
checking the natural-language specification against it.

Bytes are modelled as `Nat` (with explicit `< 256` hypotheses where the
Python type system guarantees byte range), byte strings as `List Nat`,
and Python's unbounded integers as `Nat` with explicit masks exactly
where the source masks.
-/

namespace PCMonitor

/-! ## Protocol constants (constants.py) -/

def PROTO_VER : Nat := 2
def CMD_PING : Nat := 0x01
def CMD_GET_MOUSE_DATA : Nat := 0x22
def CMD_ACK : Nat := 0x7F
def ACK_SUCCESS : Nat := 0

/-! ## CRC engine (serial_worker.py, `crc16_xmodem`)

The Python loop body works on an unbounded integer and masks only at
the very end (`return crc & 0xFFFF`); the embedding mirrors that. -/

/-- One iteration of the inner 8-step loop of `crc16_xmodem`:
`if crc & 0x8000: crc = (crc << 1) ^ poly else: crc <<= 1`. -/
def crcShift (crc : Nat) : Nat :=
  if crc &&& 0x8000 ≠ 0 then (crc <<< 1) ^^^ 0x1021 else crc <<< 1

/-- Processing of one input byte by `crc16_xmodem`:
`crc ^= (byte << 8)` followed by eight `crcShift` iterations. -/
def crcByte (crc b : Nat) : Nat := crcShift^[8] (crc ^^^ (b <<< 8))

/-- Source `crc16_xmodem(data)`: fold `crcByte` from register `0x0000` over the
bytes, and mask the result to 16 bits (`return crc & 0xFFFF`). -/
def crc16_xmodem (data : List Nat) : Nat := (data.foldl crcByte 0) &&& 0xFFFF

/-! ## Frame codec (serial_worker.py) -/

/-- Little-endian 16-bit read: `struct.unpack('<H', ...)` of the first two
bytes of a byte string (also the `H` field of `'<BBH'`). -/
def le16 (l : List Nat) : Nat := l.getD 0 0 + 256 * l.getD 1 0

/-- The bytes after the magic built by `send_frame`:
`struct.pack('<BBH', PROTO_VER, cmd, len_payload) + payload`. -/
def data_for_crc (cmd : Nat) (payload : List Nat) : List Nat :=
  PROTO_VER :: cmd :: payload.length % 256 :: payload.length / 256 :: payload

/-- The complete wire frame built by `send_frame`:
`header + data_for_crc + struct.pack('<H', crc)`. -/
def build_frame (cmd : Nat) (payload : List Nat) : List Nat :=
  0xAA :: 0x55 ::
    (data_for_crc cmd payload ++
      [crc16_xmodem (data_for_crc cmd payload) % 256,
       crc16_xmodem (data_for_crc cmd payload) / 256])

/-- Result of `_read_one_frame`: `None` (insufficient data), `False`
(CRC mismatch, frame discarded) or the decoded
`{'cmd': ..., 'payload': ..., 'ver': ...}` dictionary. -/
inductive ReadResult where
  | incomplete : ReadResult
  | invalid : ReadResult
  | frame (cmd : Nat) (payload : List Nat) (ver : Nat) : ReadResult
  deriving DecidableEq, Repr

/-- Python `buffer.find(b'\xAA\x55')`: index of the first occurrence of the
two-byte magic, `none` when absent (Python returns `-1`). -/
def findMagic : List Nat → Option Nat
  | a :: b :: rest =>
      if a = 0xAA ∧ b = 0x55 then some 0
      else (findMagic (b :: rest)).map (· + 1)
  | _ => none

/-- Tail of `_read_one_frame` from the point where the buffer has been trimmed to
start at the magic (`buffer = buffer[start_index:]`). -/
def decode_aligned (buf : List Nat) : List Nat × ReadResult :=
  if buf.length < 8 then (buf, .incomplete)
  else
    -- `_, _, payload_len = struct.unpack('<BBH', buffer[2:6])`
    let payload_len := le16 (buf.drop 4)
    let frame_len := 8 + payload_len
    if buf.length < frame_len then (buf, .incomplete)
    else
      let frame := buf.take frame_len
      let new_buffer := buf.drop frame_len
      -- `data_to_check = frame[2:6+payload_len]`
      let data_to_check := (frame.drop 2).take (4 + payload_len)
      -- `received_crc = struct.unpack('<H', frame[6+payload_len:])[0]`
      let received_crc := le16 (frame.drop (6 + payload_len))
      let calculated_crc := crc16_xmodem data_to_check
      if received_crc ≠ calculated_crc then (new_buffer, .invalid)
      else
        -- `proto_ver, cmd, _ = struct.unpack('<BBH', frame[2:6])`
        -- `payload = frame[6:6+payload_len]`
        (new_buffer, .frame (frame.getD 3 0) ((frame.drop 6).take payload_len)
          (frame.getD 2 0))

/-- Source `SerialWorker._read_one_frame(buffer)`: returns the updated buffer and
the decode outcome. -/
def read_one_frame (buffer : List Nat) : List Nat × ReadResult :=
  match findMagic buffer with
  | none =>
      if buffer.length > 1 then (buffer.drop (buffer.length - 1), .incomplete)
      else (buffer, .incomplete)
  | some start_index => decode_aligned (buffer.drop start_index)

/-! ## CRC register analysis

The Python register is an unbounded integer that is masked to 16 bits
only on return.  To reason about corruption detection we relate the
source computation to a step-wise masked computation (`mshift`,
`mbyte`, `mcrc`) whose state stays below `2 ^ 16`, and prove the masked
step injective on that range. -/

/-- Step `crcShift` with the register masked to 16 bits after the step. -/
def mshift (m : Nat) : Nat :=
  if m &&& 0x8000 ≠ 0 then ((m <<< 1) ^^^ 0x1021) &&& 0xFFFF
  else (m <<< 1) &&& 0xFFFF

/-- Step `crcByte` with a masked register. -/
def mbyte (m b : Nat) : Nat := mshift^[8] (m ^^^ (b <<< 8))

/-- Function `crc16_xmodem` computed with a masked register. -/
def mcrc (data : List Nat) : Nat := data.foldl mbyte 0

lemma testBit_mask {i : Nat} : (0xFFFF : Nat).testBit i = decide (i < 16) := by
  have h : (0xFFFF : Nat) = 2 ^ 16 - 1 := by norm_num
  rw [h, Nat.testBit_two_pow_sub_one]

lemma and_mask_of_lt {x : Nat} (h : x < 65536) : x &&& 0xFFFF = x := by
  apply Nat.eq_of_testBit_eq
  intro i
  rw [Nat.testBit_and, testBit_mask]
  rcases Nat.lt_or_ge i 16 with hi | hi
  · simp [hi]
  · have hx : x.testBit i = false := by
      apply Nat.testBit_lt_two_pow
      calc x < 65536 := h
        _ = 2 ^ 16 := by norm_num
        _ ≤ 2 ^ i := Nat.pow_le_pow_right (by norm_num) hi
    simp [hx]

lemma and_mask_lt (x : Nat) : x &&& 0xFFFF < 65536 :=
  Nat.lt_of_le_of_lt Nat.and_le_right (by norm_num)

lemma shiftLeft_one_and_mask (c : Nat) :
    (c <<< 1) &&& 0xFFFF = ((c &&& 0xFFFF) <<< 1) &&& 0xFFFF := by
  apply Nat.eq_of_testBit_eq
  intro i
  simp only [Nat.testBit_and, Nat.testBit_shiftLeft, testBit_mask]
  rcases Nat.lt_or_ge i 16 with hi | hi
  · rcases Nat.eq_zero_or_pos i with h0 | h1
    · subst h0; simp
    · have : i - 1 < 16 := by omega
      simp [Nat.le_of_lt_succ, hi, this, Nat.one_le_iff_ne_zero.mpr (Nat.pos_iff_ne_zero.mp h1)]
  · simp [Nat.not_lt.mpr hi]

lemma and_highbit_mask (c : Nat) : (c &&& 0xFFFF) &&& 0x8000 = c &&& 0x8000 := by
  rw [Nat.and_assoc]
  have h : (0xFFFF : Nat) &&& 0x8000 = 0x8000 := by decide
  rw [h]

lemma crcShift_mask (c : Nat) : crcShift c &&& 0xFFFF = mshift (c &&& 0xFFFF) := by
  unfold crcShift mshift
  rw [and_highbit_mask]
  by_cases h : c &&& 0x8000 ≠ 0
  · rw [if_pos h, if_pos h, Nat.and_xor_distrib_right, Nat.and_xor_distrib_right,
      shiftLeft_one_and_mask]
  · rw [if_neg h, if_neg h, shiftLeft_one_and_mask]

lemma crcShift_iterate_mask (n c : Nat) :
    crcShift^[n] c &&& 0xFFFF = mshift^[n] (c &&& 0xFFFF) := by
  induction n generalizing c with
  | zero => rfl
  | succ k ih =>
      rw [Function.iterate_succ_apply, Function.iterate_succ_apply, ← crcShift_mask, ih]

lemma crcByte_mask {b : Nat} (c : Nat) (hb : b < 256) :
    crcByte c b &&& 0xFFFF = mbyte (c &&& 0xFFFF) b := by
  unfold crcByte mbyte
  rw [crcShift_iterate_mask, Nat.and_xor_distrib_right,
    and_mask_of_lt (x := b <<< 8) (by rw [Nat.shiftLeft_eq]; omega)]

lemma foldl_crcByte_mask (l : List Nat) (hl : ∀ b ∈ l, b < 256) (c : Nat) :
    l.foldl crcByte c &&& 0xFFFF = l.foldl mbyte (c &&& 0xFFFF) := by
  induction l generalizing c with
  | nil => rfl
  | cons b t ih =>
      simp only [List.foldl_cons]
      rw [ih (fun x hx => hl x (List.mem_cons_of_mem _ hx)),
        crcByte_mask c (hl b (List.mem_cons_self _ _))]

/-- On byte-valued input the source CRC equals the masked-register CRC. -/
lemma crc16_eq_mcrc (l : List Nat) (hl : ∀ b ∈ l, b < 256) :
    crc16_xmodem l = mcrc l := by
  unfold crc16_xmodem mcrc
  rw [foldl_crcByte_mask l hl 0, Nat.zero_and]

lemma highbit_iff (m : Nat) : m &&& 0x8000 ≠ 0 ↔ m.testBit 15 = true := by
  have h : (0x8000 : Nat) = 2 ^ 15 := by norm_num
  rw [h, Nat.and_two_pow]
  cases hb : m.testBit 15 <;> simp

lemma shiftl_mask_inj {m m' : Nat} (hm : m < 65536) (hm' : m' < 65536)
    (hbit : m.testBit 15 = m'.testBit 15)
    (h : (m <<< 1) &&& 0xFFFF = (m' <<< 1) &&& 0xFFFF) : m = m' := by
  apply Nat.eq_of_testBit_eq
  intro i
  rcases Nat.lt_trichotomy i 15 with hi | hi | hi
  · have hb := congrArg (Nat.testBit · (i + 1)) h
    simp only [Nat.testBit_and, Nat.testBit_shiftLeft, testBit_mask,
      Nat.add_sub_cancel] at hb
    have h16 : i + 1 < 16 := by omega
    have h1 : 1 ≤ i + 1 := by omega
    simpa [h16, h1] using hb
  · subst hi; exact hbit
  · have hpow : ∀ x : Nat, x < 65536 → x.testBit i = false := by
      intro x hx
      apply Nat.testBit_lt_two_pow
      calc x < 65536 := hx
        _ = 2 ^ 16 := by norm_num
        _ ≤ 2 ^ i := Nat.pow_le_pow_right (by norm_num) (by omega)
    rw [hpow m hm, hpow m' hm']

lemma mshift_bit0_high (m : Nat) (h : m &&& 0x8000 ≠ 0) :
    (mshift m).testBit 0 = true := by
  unfold mshift
  rw [if_pos h, Nat.testBit_and, Nat.testBit_xor]
  have h1 : (m <<< 1).testBit 0 = false := by simp [Nat.testBit_shiftLeft]
  rw [h1]
  decide

lemma mshift_bit0_low (m : Nat) (h : ¬ m &&& 0x8000 ≠ 0) :
    (mshift m).testBit 0 = false := by
  unfold mshift
  rw [if_neg h, Nat.testBit_and]
  have h1 : (m <<< 1).testBit 0 = false := by simp [Nat.testBit_shiftLeft]
  rw [h1]
  decide

lemma mshift_inj {m m' : Nat} (hm : m < 65536) (hm' : m' < 65536)
    (h : mshift m = mshift m') : m = m' := by
  by_cases h1 : m &&& 0x8000 ≠ 0 <;> by_cases h2 : m' &&& 0x8000 ≠ 0
  · unfold mshift at h
    rw [if_pos h1, if_pos h2, Nat.and_xor_distrib_right, Nat.and_xor_distrib_right,
      Nat.xor_left_inj] at h
    exact shiftl_mask_inj hm hm' (by rw [(highbit_iff m).mp h1, (highbit_iff m').mp h2]) h
  · exact absurd ((mshift_bit0_low m' h2).symm.trans
      ((congrArg (Nat.testBit · 0) h).symm.trans (mshift_bit0_high m h1))) (by simp)
  · exact absurd ((mshift_bit0_low m h1).symm.trans
      ((congrArg (Nat.testBit · 0) h).trans (mshift_bit0_high m' h2))) (by simp)
  · unfold mshift at h
    rw [if_neg h1, if_neg h2] at h
    have hb : m.testBit 15 = m'.testBit 15 := by
      have e1 : m.testBit 15 = false := by
        rcases Bool.eq_false_or_eq_true (m.testBit 15) with hc | hc
        · exact absurd ((highbit_iff m).mpr hc) h1
        · exact hc
      have e2 : m'.testBit 15 = false := by
        rcases Bool.eq_false_or_eq_true (m'.testBit 15) with hc | hc
        · exact absurd ((highbit_iff m').mpr hc) h2
        · exact hc
      rw [e1, e2]
    exact shiftl_mask_inj hm hm' hb h

lemma mshift_lt (m : Nat) : mshift m < 65536 := by
  unfold mshift
  split
  · exact and_mask_lt _
  · exact and_mask_lt _

lemma mshift_iterate_lt (n m : Nat) (hm : m < 65536) : mshift^[n] m < 65536 := by
  induction n with
  | zero => exact hm
  | succ k ih => rw [Function.iterate_succ_apply']; exact mshift_lt _

lemma mshift_iterate_inj (n : Nat) {m m' : Nat} (hm : m < 65536) (hm' : m' < 65536)
    (h : mshift^[n] m = mshift^[n] m') : m = m' := by
  induction n generalizing m m' with
  | zero => exact h
  | succ k ih =>
      rw [Function.iterate_succ_apply, Function.iterate_succ_apply] at h
      exact mshift_inj hm hm' (ih (mshift_lt m) (mshift_lt m') h)

lemma xor_byte_lt {m b : Nat} (hm : m < 65536) (hb : b < 256) :
    m ^^^ (b <<< 8) < 65536 := by
  have h : (65536 : Nat) = 2 ^ 16 := by norm_num
  rw [h] at hm ⊢
  exact Nat.xor_lt_two_pow hm (by rw [Nat.shiftLeft_eq]; omega)

lemma mbyte_lt {m b : Nat} (hm : m < 65536) (hb : b < 256) : mbyte m b < 65536 :=
  mshift_iterate_lt 8 _ (xor_byte_lt hm hb)

lemma mbyte_inj_state {b : Nat} (hb : b < 256) {m m' : Nat}
    (hm : m < 65536) (hm' : m' < 65536) (h : mbyte m b = mbyte m' b) : m = m' := by
  have := mshift_iterate_inj 8 (xor_byte_lt hm hb) (xor_byte_lt hm' hb) h
  exact Nat.xor_left_inj.mp this

lemma mbyte_inj_byte {m : Nat} (hm : m < 65536) {b b' : Nat}
    (hb : b < 256) (hb' : b' < 256) (hne : b ≠ b') : mbyte m b ≠ mbyte m b' := by
  intro h
  have := mshift_iterate_inj 8 (xor_byte_lt hm hb) (xor_byte_lt hm hb') h
  have hs : b <<< 8 = b' <<< 8 := Nat.xor_right_inj.mp this
  rw [Nat.shiftLeft_eq, Nat.shiftLeft_eq] at hs
  exact hne (by omega)

lemma foldl_mbyte_lt (l : List Nat) (hl : ∀ b ∈ l, b < 256) {m : Nat}
    (hm : m < 65536) : l.foldl mbyte m < 65536 := by
  induction l generalizing m with
  | nil => exact hm
  | cons b t ih =>
      exact ih (fun x hx => hl x (List.mem_cons_of_mem _ hx))
        (mbyte_lt hm (hl b (List.mem_cons_self _ _)))

lemma foldl_mbyte_inj (l : List Nat) (hl : ∀ b ∈ l, b < 256) {m m' : Nat}
    (hm : m < 65536) (hm' : m' < 65536)
    (h : l.foldl mbyte m = l.foldl mbyte m') : m = m' := by
  induction l generalizing m m' with
  | nil => exact h
  | cons b t ih =>
      have hb := hl b (List.mem_cons_self _ _)
      exact mbyte_inj_state hb hm hm'
        (ih (fun x hx => hl x (List.mem_cons_of_mem _ hx))
          (mbyte_lt hm hb) (mbyte_lt hm' hb) h)

/-- CRC-16/XMODEM separates byte strings that differ in exactly one byte:
the carrier of the corruption-detection claims. -/
lemma crc16_ne_of_byte_change (pre suf : List Nat) {x x' : Nat}
    (hpre : ∀ b ∈ pre, b < 256) (hsuf : ∀ b ∈ suf, b < 256)
    (hx : x < 256) (hx' : x' < 256) (hne : x ≠ x') :
    crc16_xmodem (pre ++ x :: suf) ≠ crc16_xmodem (pre ++ x' :: suf) := by
  have hall : ∀ y : Nat, y < 256 → ∀ b ∈ pre ++ y :: suf, b < 256 := by
    intro y hy b hb
    rcases List.mem_append.mp hb with h | h
    · exact hpre b h
    · rcases List.mem_cons.mp h with h | h
      · omega
      · exact hsuf b h
  rw [crc16_eq_mcrc _ (hall x hx), crc16_eq_mcrc _ (hall x' hx')]
  unfold mcrc
  rw [List.foldl_append, List.foldl_append, List.foldl_cons, List.foldl_cons]
  intro h
  have hs : pre.foldl mbyte 0 < 65536 := foldl_mbyte_lt pre hpre (by norm_num)
  exact mbyte_inj_byte hs hx hx' hne
    (foldl_mbyte_inj suf hsuf (mbyte_lt hs hx) (mbyte_lt hs hx') h)

/-! ## Decoder slicing lemmas -/

lemma findMagic_magic (l : List Nat) : findMagic (0xAA :: 0x55 :: l) = some 0 := by
  simp [findMagic]

lemma read_one_frame_of_findMagic {buffer : List Nat} {i : Nat}
    (h : findMagic buffer = some i) :
    read_one_frame buffer = decode_aligned (buffer.drop i) := by
  unfold read_one_frame
  rw [h]

/-- How `_read_one_frame` behaves on a magic-aligned buffer that holds a
complete length-consistent frame: the frame boundary is cut at
`8 + payload_len` and the CRC decides between the valid and invalid
outcome, with the remainder `s` becoming the new buffer either way. -/
lemma decode_aligned_frame (v c l0 l1 : Nat) (mid s : List Nat)
    (hmid : mid.length = l0 + 256 * l1 + 2) :
    decode_aligned ([0xAA, 0x55, v, c, l0, l1] ++ (mid ++ s)) =
      if le16 (mid.drop (l0 + 256 * l1)) ≠
          crc16_xmodem (v :: c :: l0 :: l1 :: mid.take (l0 + 256 * l1)) then
        (s, .invalid)
      else
        (s, .frame c (mid.take (l0 + 256 * l1)) v) := by
  set L := l0 + 256 * l1 with hL
  have hlen : ([0xAA, 0x55, v, c, l0, l1] ++ (mid ++ s)).length = 8 + L + s.length := by
    simp [hmid]
    omega
  have hple : le16 (([0xAA, 0x55, v, c, l0, l1] ++ (mid ++ s)).drop 4) = L := rfl
  have hframe : ([0xAA, 0x55, v, c, l0, l1] ++ (mid ++ s)).take (8 + L) =
      [0xAA, 0x55, v, c, l0, l1] ++ mid := by
    have h8 : 8 + L = ([0xAA, 0x55, v, c, l0, l1] : List Nat).length + (L + 2) := by
      simp
      omega
    rw [h8, List.take_append, List.take_left' hmid]
  have hnew : ([0xAA, 0x55, v, c, l0, l1] ++ (mid ++ s)).drop (8 + L) = s := by
    have h8 : 8 + L = ([0xAA, 0x55, v, c, l0, l1] : List Nat).length + (L + 2) := by
      simp
      omega
    rw [h8, List.drop_append, List.drop_left' hmid]
  have hdata : (([0xAA, 0x55, v, c, l0, l1] ++ mid).drop 2).take (4 + L) =
      v :: c :: l0 :: l1 :: mid.take L := by
    have h2 : ([0xAA, 0x55, v, c, l0, l1] ++ mid).drop 2 = [v, c, l0, l1] ++ mid := rfl
    have h4 : 4 + L = ([v, c, l0, l1] : List Nat).length + L := by simp
    rw [h2, h4, List.take_append]
    rfl
  have hrecv : ([0xAA, 0x55, v, c, l0, l1] ++ mid).drop (6 + L) = mid.drop L := by
    have h6 : 6 + L = ([0xAA, 0x55, v, c, l0, l1] : List Nat).length + L := by simp
    rw [h6, List.drop_append]
  have hpay : (([0xAA, 0x55, v, c, l0, l1] ++ mid).drop 6).take L = mid.take L := rfl
  have hg3 : ([0xAA, 0x55, v, c, l0, l1] ++ mid).getD 3 0 = c := rfl
  have hg2 : ([0xAA, 0x55, v, c, l0, l1] ++ mid).getD 2 0 = v := rfl
  simp only [decode_aligned, hple, hlen, hframe, hnew, hdata, hrecv, hpay, hg3, hg2]
  rw [if_neg (by omega), if_neg (by omega)]

/-- Decoding a buffer that starts with a frame built by `send_frame`
consumes exactly that frame, returns its fields, and leaves the trailing
bytes `s` as the new buffer. -/
lemma read_build_frame (cmd : Nat) (payload s : List Nat) :
    read_one_frame (build_frame cmd payload ++ s) =
      (s, .frame cmd payload PROTO_VER) := by
  have hshape : build_frame cmd payload ++ s =
      [0xAA, 0x55, PROTO_VER, cmd, payload.length % 256, payload.length / 256] ++
        ((payload ++ [crc16_xmodem (data_for_crc cmd payload) % 256,
           crc16_xmodem (data_for_crc cmd payload) / 256]) ++ s) := by
    simp [build_frame, data_for_crc]
  have hmid : (payload ++ [crc16_xmodem (data_for_crc cmd payload) % 256,
      crc16_xmodem (data_for_crc cmd payload) / 256]).length =
      payload.length % 256 + 256 * (payload.length / 256) + 2 := by
    simp [Nat.mod_add_div]
  have hfind : findMagic (build_frame cmd payload ++ s) = some 0 := by
    rw [hshape]
    exact findMagic_magic _
  rw [read_one_frame_of_findMagic hfind, List.drop_zero, hshape,
    decode_aligned_frame _ _ _ _ _ _ hmid, Nat.mod_add_div,
    List.take_left' rfl, List.drop_left' rfl]
  have hdata : (PROTO_VER :: cmd :: payload.length % 256 ::
      payload.length / 256 :: payload) = data_for_crc cmd payload := rfl
  rw [hdata]
  have hcrc : le16 [crc16_xmodem (data_for_crc cmd payload) % 256,
      crc16_xmodem (data_for_crc cmd payload) / 256] =
      crc16_xmodem (data_for_crc cmd payload) := by
    unfold le16
    simp [Nat.mod_add_div]
  rw [hcrc, if_neg (by simp)]

lemma decode_aligned_short (buf : List Nat) (h : buf.length < 8) :
    decode_aligned buf = (buf, .incomplete) := by
  unfold decode_aligned
  rw [if_pos h]

/-- A magic-aligned buffer whose length field promises more bytes than are
present is left untouched with the `Incomplete` outcome. -/
lemma decode_aligned_incomplete (v c l0 l1 : Nat) (t : List Nat)
    (hshort : t.length < l0 + 256 * l1 + 2) :
    decode_aligned ([0xAA, 0x55, v, c, l0, l1] ++ t) =
      ([0xAA, 0x55, v, c, l0, l1] ++ t, .incomplete) := by
  have hple : le16 (([0xAA, 0x55, v, c, l0, l1] ++ t).drop 4) = l0 + 256 * l1 := rfl
  have hlen : ([0xAA, 0x55, v, c, l0, l1] ++ t).length = 6 + t.length := by
    simp
    omega
  simp only [decode_aligned, hple, hlen]
  by_cases h8 : 6 + t.length < 8
  · rw [if_pos h8]
  · rw [if_neg h8, if_pos (by omega)]

/-- Every proper prefix of an encoded frame decodes to `Incomplete` with
the buffer unchanged. -/
lemma read_one_frame_prefix_incomplete (cmd : Nat) (payload : List Nat) (k : Nat)
    (hk : k < 8 + payload.length) :
    read_one_frame ((build_frame cmd payload).take k) =
      ((build_frame cmd payload).take k, .incomplete) := by
  obtain ⟨mid, hmid, hBF⟩ : ∃ mid : List Nat,
      mid.length = payload.length + 2 ∧
      build_frame cmd payload = 0xAA :: 0x55 :: PROTO_VER :: cmd ::
        payload.length % 256 :: payload.length / 256 :: mid := by
    refine ⟨payload ++ [crc16_xmodem (data_for_crc cmd payload) % 256,
      crc16_xmodem (data_for_crc cmd payload) / 256], by simp, ?_⟩
    simp [build_frame, data_for_crc]
  rw [hBF]
  rcases k with _ | _ | k
  · rfl
  · rfl
  · rw [List.take_succ_cons, List.take_succ_cons,
      read_one_frame_of_findMagic (findMagic_magic _), List.drop_zero]
    rcases Nat.lt_or_ge k 4 with h4 | h4
    · apply decode_aligned_short
      have h1 := List.length_take_le k (PROTO_VER :: cmd ::
        payload.length % 256 :: payload.length / 256 :: mid)
      simp only [List.length_cons]
      omega
    · obtain ⟨j, rfl⟩ : ∃ j, k = 4 + j := ⟨k - 4, by omega⟩
      have ht : List.take (4 + j) (PROTO_VER :: cmd :: payload.length % 256 ::
          payload.length / 256 :: mid) = PROTO_VER :: cmd :: payload.length % 256 ::
          payload.length / 256 :: List.take j mid := by
        rw [show 4 + j = j + 1 + 1 + 1 + 1 by omega, List.take_succ_cons,
          List.take_succ_cons, List.take_succ_cons, List.take_succ_cons]
      rw [ht]
      have hshape : (0xAA : Nat) :: 0x55 :: PROTO_VER :: cmd :: payload.length % 256 ::
          payload.length / 256 :: List.take j mid =
          [0xAA, 0x55, PROTO_VER, cmd, payload.length % 256, payload.length / 256] ++
            List.take j mid := rfl
      rw [hshape]
      apply decode_aligned_incomplete
      have h1 := List.length_take_le j mid
      have h2 : payload.length % 256 + 256 * (payload.length / 256) = payload.length :=
        Nat.mod_add_div _ _
      omega

/-! ## Claim theorems: round trip and partial delivery -/

/-- C1: for every command id in `[0,255]` and byte payload of length at
most 65535, running `_read_one_frame` on exactly the bytes built by
`send_frame` yields the one valid frame with the same command id,
protocol version and payload, and an empty remainder buffer. -/
theorem roundtrip_encode_decode (cmd : Nat) (payload : List Nat)
    (hcmd : cmd ≤ 255) (hbytes : ∀ b ∈ payload, b < 256)
    (hlen : payload.length ≤ 65535) :
    read_one_frame (build_frame cmd payload) =
      ([], .frame cmd payload PROTO_VER) := by
  have h := read_build_frame cmd payload []
  simpa using h

/-- Witness for C1 at `cmd = 1`, `payload = "A"`. -/
theorem roundtrip_encode_decode_witness :
    read_one_frame (build_frame 1 [65]) = ([], .frame 1 [65] PROTO_VER) :=
  roundtrip_encode_decode 1 [65] (by decide) (by decide) (by decide)

/-- C5: feeding any proper prefix of a valid encoded frame returns
`Incomplete` with the (magic-aligned) buffer unchanged, and appending the
remaining bytes then yields the correct frame exactly once. -/
theorem partial_delivery (cmd : Nat) (payload : List Nat) (k : Nat)
    (hcmd : cmd ≤ 255) (hbytes : ∀ b ∈ payload, b < 256)
    (hlen : payload.length ≤ 65535) (hk : k < 8 + payload.length) :
    read_one_frame ((build_frame cmd payload).take k) =
      ((build_frame cmd payload).take k, .incomplete) ∧
    read_one_frame ((build_frame cmd payload).take k ++
        (build_frame cmd payload).drop k) =
      ([], .frame cmd payload PROTO_VER) := by
  constructor
  · exact read_one_frame_prefix_incomplete cmd payload k hk
  · rw [List.take_append_drop]
    have h := read_build_frame cmd payload []
    simpa using h

/-- Witness for C5 at `cmd = 1`, `payload = "A"`, split after 3 bytes. -/
theorem partial_delivery_witness :
    read_one_frame ((build_frame 1 [65]).take 3) =
      ((build_frame 1 [65]).take 3, .incomplete) ∧
    read_one_frame ((build_frame 1 [65]).take 3 ++ (build_frame 1 [65]).drop 3) =
      ([], .frame 1 [65] PROTO_VER) :=
  partial_delivery 1 [65] 3 (by decide) (by decide) (by decide) (by decide)

/-! ## Corruption detection -/

/-- The single-transmission-error model: flip bit `bit` of the byte at
index `pos` of a byte string. -/
def flipBit (l : List Nat) (pos bit : Nat) : List Nat :=
  l.set pos (l.getD pos 0 ^^^ (1 <<< bit))

lemma xor_bit_ne (x bit : Nat) : x ^^^ (1 <<< bit) ≠ x := by
  intro h
  have h0 : x ^^^ (1 <<< bit) = x ^^^ 0 := by rw [Nat.xor_zero]; exact h
  have h1 := Nat.xor_right_inj.mp h0
  have h2 : (0:Nat) < 1 <<< bit := by rw [Nat.shiftLeft_eq]; positivity
  omega

lemma xor_bit_lt {x bit : Nat} (hx : x < 256) (hbit : bit < 8) :
    x ^^^ (1 <<< bit) < 256 := by
  have h8 : (256:Nat) = 2 ^ 8 := by norm_num
  rw [h8] at hx ⊢
  refine Nat.xor_lt_two_pow hx ?_
  rw [Nat.shiftLeft_eq]
  have h2 : 2 ^ bit ≤ 2 ^ 7 := Nat.pow_le_pow_right (by norm_num) (by omega)
  omega

lemma list_decomp {l : List Nat} {n : Nat} (h : n < l.length) :
    l = l.take n ++ l.getD n 0 :: l.drop (n + 1) := by
  rw [List.getD_eq_getElem _ _ h, List.getElem_cons_drop, List.take_append_drop]

/-- Overwriting one byte of the CRC-checked region with a different byte
changes the CRC. -/
lemma crc16_ne_of_set (pre l : List Nat) (i x' : Nat)
    (hpre : ∀ b ∈ pre, b < 256) (hl : ∀ b ∈ l, b < 256)
    (hx' : x' < 256) (hi : i < l.length) (hne : x' ≠ l.getD i 0) :
    crc16_xmodem (pre ++ l) ≠ crc16_xmodem (pre ++ l.set i x') := by
  have h1 : pre ++ l = (pre ++ l.take i) ++ (l.getD i 0 :: l.drop (i + 1)) := by
    rw [List.append_assoc]
    exact congrArg (pre ++ ·) (list_decomp hi)
  have h2 : pre ++ l.set i x' = (pre ++ l.take i) ++ (x' :: l.drop (i + 1)) := by
    rw [List.append_assoc]
    exact congrArg (pre ++ ·) (List.set_eq_take_cons_drop x' hi)
  rw [h1, h2]
  refine crc16_ne_of_byte_change _ _ ?_ ?_ ?_ hx' ?_
  · intro b hb
    rcases List.mem_append.mp hb with h | h
    · exact hpre b h
    · exact hl b (List.mem_of_mem_take h)
  · intro b hb
    exact hl b (List.mem_of_mem_drop hb)
  · rw [List.getD_eq_getElem _ _ hi]
    exact hl _ (List.getElem_mem hi)
  · exact fun h => hne h.symm

lemma header_bytes_lt (cmd : Nat) (payload : List Nat) (hcmd : cmd ≤ 255)
    (hlen : payload.length ≤ 65535) :
    ∀ b ∈ ([PROTO_VER, cmd, payload.length % 256, payload.length / 256] : List Nat),
      b < 256 := by
  intro b hb
  have hd : payload.length / 256 ≤ 65535 / 256 := Nat.div_le_div_right hlen
  have hm : payload.length % 256 < 256 := Nat.mod_lt _ (by norm_num)
  simp only [List.mem_cons, List.not_mem_nil, or_false, PROTO_VER] at hb
  rcases hb with rfl | rfl | rfl | rfl <;> omega

/-- Core corruption lemma: flipping any single bit at an offset inside
the payload or CRC region of an aligned frame whose trailing two bytes
encode the correct CRC makes `_read_one_frame` return the `Invalid`
outcome and hand the bytes after the frame boundary back as the new
buffer. -/
lemma read_flip_invalid (cmd : Nat) (payload : List Nat) (cl ch : Nat)
    (pos bit : Nat) (s : List Nat)
    (hcmd : cmd ≤ 255) (hbytes : ∀ b ∈ payload, b < 256)
    (hlen : payload.length ≤ 65535)
    (hcrceq : cl + 256 * ch = crc16_xmodem (data_for_crc cmd payload))
    (hpos1 : 6 ≤ pos) (hpos2 : pos < 8 + payload.length) (hbit : bit < 8) :
    read_one_frame (flipBit
      ([0xAA, 0x55, PROTO_VER, cmd, payload.length % 256, payload.length / 256] ++
        (payload ++ [cl, ch])) pos bit ++ s) = (s, .invalid) := by
  have hplen6 : ([0xAA, 0x55, PROTO_VER, cmd, payload.length % 256,
      payload.length / 256] : List Nat).length = 6 := rfl
  have hflip : flipBit
      ([0xAA, 0x55, PROTO_VER, cmd, payload.length % 256, payload.length / 256] ++
        (payload ++ [cl, ch])) pos bit =
      [0xAA, 0x55, PROTO_VER, cmd, payload.length % 256, payload.length / 256] ++
        flipBit (payload ++ [cl, ch]) (pos - 6) bit := by
    unfold flipBit
    rw [List.getD_append_right _ _ _ _ (by rw [hplen6]; omega), List.set_append, hplen6,
      if_neg (by omega)]
  rw [hflip, List.append_assoc]
  have hmidlen : (flipBit (payload ++ [cl, ch]) (pos - 6) bit).length =
      payload.length % 256 + 256 * (payload.length / 256) + 2 := by
    unfold flipBit
    rw [List.length_set, Nat.mod_add_div]
    simp
  have hfind : findMagic
      ([0xAA, 0x55, PROTO_VER, cmd, payload.length % 256, payload.length / 256] ++
        (flipBit (payload ++ [cl, ch]) (pos - 6) bit ++ s)) = some 0 :=
    findMagic_magic _
  rw [read_one_frame_of_findMagic hfind, List.drop_zero,
    decode_aligned_frame _ _ _ _ _ _ hmidlen, Nat.mod_add_div]
  have hcond : le16 ((flipBit (payload ++ [cl, ch]) (pos - 6) bit).drop payload.length) ≠
      crc16_xmodem (PROTO_VER :: cmd :: payload.length % 256 :: payload.length / 256 ::
        (flipBit (payload ++ [cl, ch]) (pos - 6) bit).take payload.length) := by
    rcases Nat.lt_or_ge (pos - 6) payload.length with hA | hB
    · -- bit flipped inside the payload: the recomputed CRC changes
      have hsetA : flipBit (payload ++ [cl, ch]) (pos - 6) bit =
          payload.set (pos - 6) (payload.getD (pos - 6) 0 ^^^ (1 <<< bit)) ++ [cl, ch] := by
        unfold flipBit
        rw [List.getD_append _ _ _ _ hA, List.set_append, if_pos hA]
      have hlenset : (payload.set (pos - 6)
          (payload.getD (pos - 6) 0 ^^^ (1 <<< bit))).length = payload.length :=
        List.length_set _ _ _
      rw [hsetA, List.drop_left' hlenset, List.take_left' hlenset]
      have hle : le16 [cl, ch] = cl + 256 * ch := rfl
      rw [hle, hcrceq]
      have hshape1 : data_for_crc cmd payload =
          [PROTO_VER, cmd, payload.length % 256, payload.length / 256] ++ payload := rfl
      have hshape2 : (PROTO_VER :: cmd :: payload.length % 256 :: payload.length / 256 ::
          payload.set (pos - 6) (payload.getD (pos - 6) 0 ^^^ (1 <<< bit)) : List Nat) =
          [PROTO_VER, cmd, payload.length % 256, payload.length / 256] ++
            payload.set (pos - 6) (payload.getD (pos - 6) 0 ^^^ (1 <<< bit)) := rfl
      rw [hshape1, hshape2]
      refine crc16_ne_of_set _ _ _ _ (header_bytes_lt cmd payload hcmd hlen) hbytes ?_ hA ?_
      · refine xor_bit_lt ?_ hbit
        rw [List.getD_eq_getElem _ _ hA]
        exact hbytes _ (List.getElem_mem hA)
      · exact xor_bit_ne _ _
    · -- bit flipped inside the stored CRC: the received CRC changes
      have hsetB : flipBit (payload ++ [cl, ch]) (pos - 6) bit =
          payload ++ [cl, ch].set (pos - 6 - payload.length)
            (([cl, ch] : List Nat).getD (pos - 6 - payload.length) 0 ^^^ (1 <<< bit)) := by
        unfold flipBit
        rw [List.getD_append_right _ _ _ _ hB, List.set_append, if_neg (by omega)]
      rw [hsetB, List.drop_left' rfl, List.take_left' rfl]
      have hfold : (PROTO_VER :: cmd :: payload.length % 256 :: payload.length / 256 ::
          payload : List Nat) = data_for_crc cmd payload := rfl
      rw [hfold, ← hcrceq]
      rcases (by omega : pos - 6 - payload.length = 0 ∨ pos - 6 - payload.length = 1)
        with h0 | h0 <;> rw [h0]
      · have hne := xor_bit_ne cl bit
        have hle : le16 (([cl, ch] : List Nat).set 0
            (([cl, ch] : List Nat).getD 0 0 ^^^ (1 <<< bit))) =
            (cl ^^^ (1 <<< bit)) + 256 * ch := rfl
        rw [hle]
        set y := cl ^^^ (1 <<< bit) with hy
        omega
      · have hne := xor_bit_ne ch bit
        have hle : le16 (([cl, ch] : List Nat).set 1
            (([cl, ch] : List Nat).getD 1 0 ^^^ (1 <<< bit))) =
            cl + 256 * (ch ^^^ (1 <<< bit)) := rfl
        rw [hle]
        set y := ch ^^^ (1 <<< bit) with hy
        omega
  rw [if_pos hcond]

/-- Flipping any single bit in the payload or CRC field of an encoded
frame makes the decoder discard it as `Invalid`, with the bytes after
the frame boundary becoming the new buffer. -/
lemma read_corrupted_build_frame (cmd : Nat) (payload : List Nat) (pos bit : Nat)
    (s : List Nat) (hcmd : cmd ≤ 255) (hbytes : ∀ b ∈ payload, b < 256)
    (hlen : payload.length ≤ 65535) (hpos1 : 6 ≤ pos)
    (hpos2 : pos < 8 + payload.length) (hbit : bit < 8) :
    read_one_frame (flipBit (build_frame cmd payload) pos bit ++ s) =
      (s, .invalid) := by
  have hBF : build_frame cmd payload =
      [0xAA, 0x55, PROTO_VER, cmd, payload.length % 256, payload.length / 256] ++
        (payload ++ [crc16_xmodem (data_for_crc cmd payload) % 256,
          crc16_xmodem (data_for_crc cmd payload) / 256]) := by
    simp [build_frame, data_for_crc]
  rw [hBF]
  exact read_flip_invalid cmd payload _ _ pos bit s hcmd hbytes hlen
    (Nat.mod_add_div _ _) hpos1 hpos2 hbit

set_option maxRecDepth 20000

/-- C2: the CRC engine is the bit-by-bit CRC-16/XMODEM: on byte input it
agrees with the step-wise 16-bit-masked register computation, yields the
canonical check value `0x31C3` on the ASCII string `"123456789"`, and `0`
on the empty byte string. -/
theorem crc16_xmodem_spec :
    (∀ l : List Nat, (∀ b ∈ l, b < 256) → crc16_xmodem l = mcrc l) ∧
    crc16_xmodem [0x31, 0x32, 0x33, 0x34, 0x35, 0x36, 0x37, 0x38, 0x39] = 0x31C3 ∧
    crc16_xmodem [] = 0 := by
  refine ⟨crc16_eq_mcrc, by decide, rfl⟩

/-- Witness for C2's byte-input hypothesis at the single byte `0x31`. -/
theorem crc16_xmodem_spec_witness :
    crc16_xmodem [0x31] = mcrc [0x31] :=
  crc16_xmodem_spec.1 [0x31] (by decide)

/-- C3: flipping any single bit of an encoded frame's payload or CRC
field makes `_read_one_frame` return the `Invalid` outcome for that
frame, with the bytes after the frame boundary becoming the new buffer,
so a well-formed frame appended after the corrupted one still decodes
correctly on the next call. -/
theorem corruption_detected (cmd cmd2 : Nat) (payload payload2 : List Nat)
    (pos bit : Nat)
    (hcmd : cmd ≤ 255) (hbytes : ∀ b ∈ payload, b < 256)
    (hlen : payload.length ≤ 65535)
    (hcmd2 : cmd2 ≤ 255) (hbytes2 : ∀ b ∈ payload2, b < 256)
    (hlen2 : payload2.length ≤ 65535)
    (hpos1 : 6 ≤ pos) (hpos2 : pos < 8 + payload.length) (hbit : bit < 8) :
    read_one_frame (flipBit (build_frame cmd payload) pos bit ++
        build_frame cmd2 payload2) =
      (build_frame cmd2 payload2, .invalid) ∧
    read_one_frame (build_frame cmd2 payload2) =
      ([], .frame cmd2 payload2 PROTO_VER) := by
  constructor
  · exact read_corrupted_build_frame cmd payload pos bit _ hcmd hbytes hlen
      hpos1 hpos2 hbit
  · simpa using read_build_frame cmd2 payload2 []

/-- Witness for C3: flip bit 0 of the payload byte of `Encode(1, "A")`,
followed by `Encode(2, "BC")`. -/
theorem corruption_detected_witness :
    read_one_frame (flipBit (build_frame 1 [65]) 6 0 ++ build_frame 2 [66, 67]) =
      (build_frame 2 [66, 67], .invalid) ∧
    read_one_frame (build_frame 2 [66, 67]) = ([], .frame 2 [66, 67] PROTO_VER) :=
  corruption_detected 1 2 [65] [66, 67] 6 0 (by decide) (by decide) (by decide)
    (by decide) (by decide) (by decide) (by decide) (by decide) (by decide)

/-! ## Receive-loop drain (`_process_read_data`) -/

/-- Source `SerialWorker._process_read_data`: loop `_read_one_frame` over the
buffer until it reports insufficient data, skipping CRC failures and
frames whose protocol version differs from `PROTO_VER`, and handing each
remaining `(cmd, payload)` to `_handle_valid_frame` in wire order.
The `while True` loop is given explicit fuel; each consuming iteration
removes at least 8 bytes, so `buffer.length + 1` is always enough. -/
def process_read_data : Nat → List Nat → List (Nat × List Nat) × List Nat
  | 0, buffer => ([], buffer)
  | fuel + 1, buffer =>
    match read_one_frame buffer with
    | (b, .incomplete) => ([], b)
    | (b, .invalid) => process_read_data fuel b
    | (b, .frame cmd payload ver) =>
        if ver ≠ PROTO_VER then process_read_data fuel b
        else
          ((cmd, payload) :: (process_read_data fuel b).1,
            (process_read_data fuel b).2)

lemma process_read_data_incomplete {buffer b : List Nat} {fuel : Nat}
    (h : read_one_frame buffer = (b, .incomplete)) :
    process_read_data (fuel + 1) buffer = ([], b) := by
  unfold process_read_data
  rw [h]

lemma process_read_data_frame {buffer b payload : List Nat} {c : Nat} {fuel : Nat}
    (h : read_one_frame buffer = (b, .frame c payload PROTO_VER)) :
    process_read_data (fuel + 1) buffer =
      ((c, payload) :: (process_read_data fuel b).1,
        (process_read_data fuel b).2) := by
  conv_lhs => unfold process_read_data
  rw [h]
  rfl

lemma decode_aligned_build_frame (cmd : Nat) (payload : List Nat) :
    decode_aligned (build_frame cmd payload) = ([], .frame cmd payload PROTO_VER) := by
  have hfind : findMagic (build_frame cmd payload) = some 0 := findMagic_magic _
  have h := read_build_frame cmd payload []
  rw [List.append_nil, read_one_frame_of_findMagic hfind, List.drop_zero] at h
  exact h

lemma findMagic_skip3 (n0 n1 n2 : Nat) (l : List Nat)
    (hm1 : ¬ (n0 = 0xAA ∧ n1 = 0x55)) (hm2 : ¬ (n1 = 0xAA ∧ n2 = 0x55)) :
    findMagic (n0 :: n1 :: n2 :: 0xAA :: 0x55 :: l) = some 3 := by
  simp [findMagic, hm1, hm2]

/-- C4 (amended): `Encode(1, "A")`, then three noise bytes that do not
themselves contain the magic sequence at offset 0 or 1, then
`Encode(2, "BC")`: one synchronous drain pass yields exactly the two
valid frames in wire order, silently discarding the noise, and empties
the buffer. -/
theorem resync_after_noise (n0 n1 n2 : Nat)
    (h0 : n0 < 256) (h1 : n1 < 256) (h2 : n2 < 256)
    (hm1 : ¬ (n0 = 0xAA ∧ n1 = 0x55)) (hm2 : ¬ (n1 = 0xAA ∧ n2 = 0x55)) :
    process_read_data 3 (build_frame 1 [65] ++
        ([n0, n1, n2] ++ build_frame 2 [66, 67])) =
      ([(1, [65]), (2, [66, 67])], []) := by
  rw [show (3:Nat) = 2 + 1 from rfl,
    process_read_data_frame (read_build_frame 1 [65] _)]
  have hshape : ([n0, n1, n2] : List Nat) ++ build_frame 2 [66, 67] =
      n0 :: n1 :: n2 :: 0xAA :: 0x55 ::
        (build_frame 2 [66, 67]).drop 2 := by
    have hBF : build_frame 2 [66, 67] =
        0xAA :: 0x55 :: (build_frame 2 [66, 67]).drop 2 := rfl
    rw [hBF]
    rfl
  have hfind : findMagic (([n0, n1, n2] : List Nat) ++ build_frame 2 [66, 67]) =
      some 3 := by
    rw [hshape]
    exact findMagic_skip3 _ _ _ _ hm1 hm2
  have hread : read_one_frame (([n0, n1, n2] : List Nat) ++ build_frame 2 [66, 67]) =
      ([], .frame 2 [66, 67] PROTO_VER) := by
    rw [read_one_frame_of_findMagic hfind]
    have hdrop : (([n0, n1, n2] : List Nat) ++ build_frame 2 [66, 67]).drop 3 =
        build_frame 2 [66, 67] := rfl
    rw [hdrop]
    exact decode_aligned_build_frame 2 [66, 67]
  rw [show (2:Nat) = 1 + 1 from rfl, process_read_data_frame hread]
  rfl

/-- Witness for C4 (amended) at noise bytes `[1, 2, 3]`. -/
theorem resync_after_noise_witness :
    process_read_data 3 (build_frame 1 [65] ++
        ([1, 2, 3] ++ build_frame 2 [66, 67])) =
      ([(1, [65]), (2, [66, 67])], []) :=
  resync_after_noise 1 2 3 (by decide) (by decide) (by decide) (by decide) (by decide)

/-- Counterexample to C4 as frozen: for the noise bytes
`[0xAA, 0x55, 0x00]` the drain decodes only the first frame — the stray
magic in the noise makes the decoder adopt a bogus length field and wait
forever for bytes that will never come, so the second frame is lost. -/
theorem resync_after_noise_counterexample :
    process_read_data 3 (build_frame 1 [65] ++
        ([0xAA, 0x55, 0x00] ++ build_frame 2 [66, 67])) =
      ([(1, [65])], [0xAA, 0x55, 0x00] ++ build_frame 2 [66, 67]) := by
  decide

/-! ## Command dispatcher: ACK handling (`_handle_ack`) -/

/-- Source `SerialWorker._handle_ack`: for a payload of exactly 2 bytes,
`struct.unpack('<BB', payload)` yields `(original_cmd, status_code)` and
the `ack_received` signal is emitted (modelled as `some`); any other
length only logs a warning (modelled as `none`). -/
def handle_ack (payload : List Nat) : Option (Nat × Nat) :=
  if payload.length = 2 then some (payload.getD 0 0, payload.getD 1 0) else none

/-- C7: an Acknowledgement event is emitted iff the ACK payload is
exactly 2 bytes; every other length is only logged. -/
theorem ack_emitted_iff_two_bytes (payload : List Nat) :
    (payload.length = 2 →
      handle_ack payload = some (payload.getD 0 0, payload.getD 1 0)) ∧
    (payload.length ≠ 2 → handle_ack payload = none) := by
  constructor
  · intro h
    simp [handle_ack, h]
  · intro h
    simp [handle_ack, h]

/-- Witness for C7: a 2-byte ACK payload emits the event, a 3-byte one
does not. -/
theorem ack_emitted_iff_two_bytes_witness :
    handle_ack [3, 0] = some (3, 0) ∧ handle_ack [1, 2, 3] = none :=
  ⟨(ack_emitted_iff_two_bytes [3, 0]).1 (by decide),
    (ack_emitted_iff_two_bytes [1, 2, 3]).2 (by decide)⟩

/-! ## Send path misuse (`send_frame`) -/

/-- Outcome of a `send_frame` call. -/
inductive SendOutcome where
  /-- Signal `error_occurred` is emitted ("串口未连接") and the method returns;
  nothing is written. -/
  | notConnected : SendOutcome
  /-- Python `struct.pack('<BBH', PROTO_VER, cmd, len_payload)` raises
  `struct.error` because a field exceeds its range, before any write. -/
  | invalidArgument : SendOutcome
  /-- The frame was written to the port. -/
  | sent (frame : List Nat) : SendOutcome
  deriving DecidableEq, Repr

/-- The connection-relevant mutable state of `SerialWorker` touched by
the send path. -/
structure WorkerState where
  is_open : Bool
  read_buffer : List Nat
  deriving DecidableEq, Repr

/-- Source `SerialWorker.send_frame`: guard on the open port, then build the
frame (`struct.pack` validates the `B`/`H` field ranges) and write it.
The returned state is the worker state after the call. -/
def send_frame (st : WorkerState) (cmd : Nat) (payload : List Nat) :
    WorkerState × SendOutcome :=
  if ¬ st.is_open then (st, .notConnected)
  else if 255 < cmd ∨ 65535 < payload.length then (st, .invalidArgument)
  else (st, .sent (build_frame cmd payload))

/-- C8: sending while disconnected fails with the NotConnected-kind
error, sending an oversized payload fails with the InvalidArgument-kind
error, and in both cases nothing is written and the worker state is
returned unchanged. -/
theorem caller_misuse_immediate_error (st : WorkerState) (cmd : Nat)
    (payload : List Nat) :
    (st.is_open = false → send_frame st cmd payload = (st, .notConnected)) ∧
    (st.is_open = true → 65535 < payload.length →
      send_frame st cmd payload = (st, .invalidArgument)) := by
  constructor
  · intro h
    simp [send_frame, h]
  · intro h hlen
    rw [send_frame, if_neg (by simp [h]), if_pos (Or.inr hlen)]

/-- Witness for C8: a closed port, and an open port with a
65536-byte payload. -/
theorem caller_misuse_immediate_error_witness :
    send_frame ⟨false, []⟩ 1 [] = (⟨false, []⟩, .notConnected) ∧
    send_frame ⟨true, []⟩ 1 (List.replicate 65536 0) =
      (⟨true, []⟩, .invalidArgument) :=
  ⟨(caller_misuse_immediate_error ⟨false, []⟩ 1 []).1 rfl,
    (caller_misuse_immediate_error ⟨true, []⟩ 1 (List.replicate 65536 0)).2 rfl
      (by rw [List.length_replicate]; omega)⟩

/-! ## Mouse payload parsing (`MouseDataProcessor.parse_payload`) -/

/-- Python `struct.unpack('<I', ...)`: little-endian 32-bit read of the four
bytes at offset `off`. -/
def le32 (l : List Nat) (off : Nat) : Nat :=
  l.getD off 0 + 256 * l.getD (off + 1) 0 + 65536 * l.getD (off + 2) 0 +
    16777216 * l.getD (off + 3) 0

/-- Source `MouseDataProcessor.parse_payload`: `len(payload) >= 16` unpacks
`'<IIII'` from `payload[:16]` as `distance, left, right, mid` and
returns `(distance, left, mid, right)`; `len(payload) == 8` unpacks
`'<II>'` as `distance, left` with `mid = right = 0`; anything else
raises `ValueError` (modelled as `none`). -/
def parse_payload (payload : List Nat) : Option (Nat × Nat × Nat × Nat) :=
  if 16 ≤ payload.length then
    some (le32 payload 0, le32 payload 4, le32 payload 12, le32 payload 8)
  else if payload.length = 8 then
    some (le32 payload 0, le32 payload 4, 0, 0)
  else none

/-- Counterexample to C9 as frozen: a 17-byte payload does not raise —
the code accepts any payload of length at least 16 and decodes its first
16 bytes. -/
theorem parse_payload_17_bytes_accepted :
    parse_payload (List.replicate 17 0) = some (0, 0, 0, 0) := by
  decide

/-- C9 (amended): payloads of length at least 16 are decoded from their
first 16 bytes as four little-endian uint32 fields (with the right/mid
order swap), payloads of exactly 8 bytes as two fields with mid and
right zero, and every length below 16 other than 8 raises. -/
theorem parse_payload_shapes (payload : List Nat) :
    (16 ≤ payload.length → parse_payload payload =
      some (le32 payload 0, le32 payload 4, le32 payload 12, le32 payload 8)) ∧
    (payload.length = 8 → parse_payload payload =
      some (le32 payload 0, le32 payload 4, 0, 0)) ∧
    (payload.length < 16 ∧ payload.length ≠ 8 → parse_payload payload = none) := by
  refine ⟨?_, ?_, ?_⟩
  · intro h
    rw [parse_payload, if_pos h]
  · intro h
    rw [parse_payload, if_neg (by omega), if_pos h]
  · intro h
    rw [parse_payload, if_neg (by omega), if_neg h.2]

/-- Witness for C9 (amended) on a 16-byte, an 8-byte and a 3-byte
payload. -/
theorem parse_payload_shapes_witness :
    parse_payload [1,0,0,0, 2,0,0,0, 3,0,0,0, 4,0,0,0] = some (1, 2, 4, 3) ∧
    parse_payload [1,0,0,0, 2,0,0,0] = some (1, 2, 0, 0) ∧
    parse_payload [1, 2, 3] = none :=
  ⟨((parse_payload_shapes [1,0,0,0, 2,0,0,0, 3,0,0,0, 4,0,0,0]).1
      (by decide)).trans (by decide),
    ((parse_payload_shapes [1,0,0,0, 2,0,0,0]).2.1 (by decide)).trans (by decide),
    (parse_payload_shapes [1, 2, 3]).2.2 (by decide)⟩

/-! ## Verification handshake (`connect_serial`)

The handshake reads bytes with an overall 2-second window; physical time
is abstracted by the finite list of chunk contents successive
`serial_port.read(...)` calls return inside the window, after which the
timeout elapses. -/

/-- A Python exception escaping the byte-level handling of the
handshake.  `struct.unpack('<BB', payload)` raises `struct.error` when
the payload is not exactly 2 bytes long. -/
inductive PyError where
  | structError : PyError
  deriving DecidableEq, Repr

/-- The inner `while True` drain of `connect_serial`'s wait loop: decode
frames from the local buffer until data runs out; a CRC-valid frame with
`cmd == CMD_ACK and len(payload) >= 2` is unpacked with
`struct.unpack('<BB', payload)` — which raises unless the length is
exactly 2 — and verification succeeds on `(CMD_PING, ACK_SUCCESS)`.
Each consuming iteration removes at least 8 bytes, so fuel
`buffer.length + 1` always suffices. -/
def verify_drain : Nat → List Nat → Except PyError (Bool × List Nat)
  | 0, buffer => .ok (false, buffer)
  | fuel + 1, buffer =>
    match read_one_frame buffer with
    | (b, .incomplete) => .ok (false, b)
    | (b, .invalid) => verify_drain fuel b
    | (b, .frame cmd payload _) =>
        if cmd = CMD_ACK ∧ 2 ≤ payload.length then
          if payload.length = 2 then
            if payload.getD 0 0 = CMD_PING ∧ payload.getD 1 0 = ACK_SUCCESS then
              .ok (true, b)
            else verify_drain fuel b
          else .error .structError
        else verify_drain fuel b

/-- The wait loop of `connect_serial`'s verification phase over the
chunks arriving within the 2-second window.  `some buffer` means
verification succeeded and `buffer` (the bytes left after the ACK
frame) is stored into `self.read_buffer`; `none` means the window
elapsed unverified, the port is closed and the call returns `False`. -/
def connect_verify : List (List Nat) → List Nat → Except PyError (Option (List Nat))
  | [], _ => .ok none
  | chunk :: rest, buffer =>
    match verify_drain ((buffer ++ chunk).length + 1) (buffer ++ chunk) with
    | .error e => .error e
    | .ok (true, b) => .ok (some b)
    | .ok (false, b) => connect_verify rest b

/-- Model of `connect_serial`'s exception handling around the handshake: only
`serial.SerialException` is caught (turning into an error signal and
`return False`); `struct.error` is not a `SerialException`, so it
propagates out of `connect_serial` to the caller. -/
def connect_attempt (chunks : List (List Nat)) : Except PyError Bool :=
  match connect_verify chunks [] with
  | .error e => .error e
  | .ok (some _) => .ok true
  | .ok none => .ok false

/-- C6, behaviour at the failing input: a correctly framed 2-byte
`ACK(PING, SUCCESS)` verifies the device (with trailing bytes after the
ACK frame preserved for the receive loop), and an empty window times
out and fails — but a CRC-valid ACK frame whose payload is 3 bytes long
does not make verification merely continue or fail as specified:
`struct.error` escapes `connect_serial`. -/
theorem connect_verification_divergence :
    connect_attempt [[]] = .ok false ∧
    connect_attempt [build_frame CMD_ACK [CMD_PING, ACK_SUCCESS]] = .ok true ∧
    connect_verify [build_frame CMD_ACK [CMD_PING, ACK_SUCCESS] ++ [0xBB, 0xCC]] [] =
      .ok (some [0xBB, 0xCC]) ∧
    connect_attempt [build_frame CMD_ACK [CMD_PING, ACK_SUCCESS, 7]] =
      .error .structError := by
  refine ⟨rfl, rfl, rfl, rfl⟩

/-- C10: a CRC-valid ACK frame with a payload of length 3 passes the
`len(payload) >= 2` guard, the exact-2-byte unpack raises, and the
exception escapes the connect call (only serial exceptions are caught). -/
theorem oversized_ack_escapes_connect :
    connect_attempt [build_frame CMD_ACK [CMD_PING, ACK_SUCCESS, 0]] =
      .error .structError := by
  rfl

end PCMonitor
